import Mathlib

/-!
Shallow embedding of `collector/collector.go` from borisputerka/github_billing_exporter.

The package is a collector orchestration engine: a registry of collector
factories keyed by name, a resolved-enabled flag per name, an orchestrator
(`BillingCollector`) built from the enabled entries, and an execution wrapper
(`execute`) that runs one collector's `Update` and writes a per-collector
success indicator (`up`) into the shared metric channel.

Modelling conventions:
* The prometheus metric channel `chan<- prometheus.Metric` is a write-only
  sink; we model it as a `List Metric` accumulator, a send being an append.
  `Collect` fans out one goroutine per collector and joins them; the multiset
  of sends is schedule-invariant, and we model the run as one
  sequentialization (the fold over the active set in its list order).
* Go maps (`factories`, `collectorState`, `forcedCollectors`) are modelled as
  association lists with at-most-one-entry-per-key update semantics
  (`mapSet`): assignment overwrites the value of an existing key.
* Log output (go-kit `level.Info/Error ... .Log`) is modelled as a list of
  log lines; a logger value is its key/value context.
* A collector implementation is external to this package: the core only sees
  the samples it sends (opaque to the core, `Metric.sample`) and the error
  its `Update` returns, so a `Collector` is that pair of observables.
* `float64` success values are modelled as `ℚ`; the only values the code
  produces are exactly 0 and 1, so no rounding is involved.
-/

/-- Logger context: the key/value pairs `log.With` has attached. -/
abbrev Logger := List (String × String)

/-- go-kit `log.With(logger, k, v)`: a child logger with one more pair. -/
def logWith (logger : Logger) (k v : String) : Logger :=
  logger ++ [(k, v)]

/-- prometheus `Desc` restricted to the fields this package uses:
`NewDesc(fqName, help, variableLabels, constLabels)`. -/
structure Desc where
  fqName : String
  help : String
  variableLabels : List String
  constLabels : List (String × String)
deriving DecidableEq

/-- prometheus `ValueType`. -/
inductive ValueType where
  | CounterValue
  | GaugeValue
  | UntypedValue
deriving DecidableEq

/-- prometheus `BuildFQName(namespace, subsystem, name)`: joins the non-empty
components with underscores (modelled from prometheus/client_golang). -/
def BuildFQName (ns subsystem name : String) : String :=
  if name = "" then ""
  else if ns ≠ "" ∧ subsystem ≠ "" then ns ++ "_" ++ subsystem ++ "_" ++ name
  else if ns ≠ "" then ns ++ "_" ++ name
  else if subsystem ≠ "" then subsystem ++ "_" ++ name
  else name

/-- `namespace = "github_billing"` (Go constant; `namespace` is a Lean keyword,
hence the name `nsName`). -/
def nsName : String := "github_billing"

/-- Go constant `defaultEnabled = true`. -/
def goDefaultEnabled : Bool := true

/-- Go constant `defaultDisabled = false`. -/
def goDefaultDisabled : Bool := false

/-- The package-level `up` descriptor:
`prometheus.NewDesc(prometheus.BuildFQName(namespace, "", "up"),
"Can be test_server reached", []string{"collector"}, nil)`. -/
def up : Desc :=
  { fqName := BuildFQName nsName "" "up"
    help := "Can be test_server reached"
    variableLabels := ["collector"]
    constLabels := [] }

/-- A value on the metric channel. `sample` is a metric a collector
implementation sent (opaque to this package, spec §3 MetricSample);
`constMetric` is what `NewConstMetric` builds; `panicked` marks the
panic branch of `MustNewConstMetric` (never a real channel value —
reaching it would crash the Go process). -/
inductive Metric where
  | sample (tag : String)
  | constMetric (d : Desc) (vt : ValueType) (value : ℚ) (labelValues : List String)
  | panicked (msg : String)
deriving DecidableEq

/-- prometheus `NewConstMetric`: fails unless exactly one label value is
supplied per variable label of the descriptor. -/
def NewConstMetric (d : Desc) (vt : ValueType) (value : ℚ) (labelValues : List String) :
    Except String Metric :=
  if labelValues.length = d.variableLabels.length then
    .ok (.constMetric d vt value labelValues)
  else
    .error "inconsistent label cardinality"

/-- prometheus `MustNewConstMetric`: panics where `NewConstMetric` errors. -/
def MustNewConstMetric (d : Desc) (vt : ValueType) (value : ℚ) (labelValues : List String) :
    Metric :=
  match NewConstMetric d vt value labelValues with
  | .ok m => m
  | .error e => .panicked e

/-- A collector implementation, seen through its capability contract
`Update(ch chan<- prometheus.Metric) error`: the samples it sends on the
channel and the error it returns. -/
structure Collector where
  emits : List String
  err : Option String
deriving DecidableEq

/-- `c.Update(ch)`: sends the collector's samples on the channel and
returns its error. -/
def Update (c : Collector) (ch : List Metric) : List Metric × Option String :=
  (ch ++ c.emits.map Metric.sample, c.err)

/-- A collector constructor, `func(logger log.Logger) (Collector, error)`. -/
abbrev Factory := Logger → Except String Collector

/-- `BillingCollector`: the orchestrator holding the active collector set. -/
structure BillingCollector where
  Collectors : List (String × Collector)
  logger : Logger

/-- One kingpin flag as `registerCollector` builds it:
`kingpin.Flag(flagName, flagHelp).Default(defaultValue).Action(collectorFlagAction(collector)).Bool()`.
`actionTarget` records which collector name the attached action closure
would mark as forced. -/
structure FlagClause where
  name : String
  help : String
  defaultValue : String
  actionTarget : Option String
deriving DecidableEq

/-- The package-level mutable state: the `factories` and `collectorState`
maps, the `forcedCollectors` map, and the flags registered with kingpin. -/
structure Globals where
  factories : List (String × Factory)
  collectorState : List (String × Bool)
  forcedCollectors : List (String × Bool)
  kingpinFlags : List FlagClause

/-- The state before any registration: three empty maps, no flags. -/
def emptyGlobals : Globals :=
  { factories := [], collectorState := [], forcedCollectors := [], kingpinFlags := [] }

/-- Go map assignment `m[k] = v`: overwrite the entry of `k` when present,
otherwise add one. -/
def mapSet {α : Type} : List (String × α) → String → α → List (String × α)
  | [], k, v => [(k, v)]
  | (k0, v0) :: rest, k, v =>
    if k0 = k then (k, v) :: rest else (k0, v0) :: mapSet rest k v

/-- Go map lookup `m[k]`. -/
def lookupMap {α : Type} (m : List (String × α)) (k : String) : Option α :=
  (m.find? (fun p => p.1 = k)).map (fun p => p.2)

/-- `collectorFlagAction(collector)`: the kingpin action closure, run when the
flag is explicitly given on the command line; it records the override in
`forcedCollectors` and returns a nil error. -/
def collectorFlagAction (collector : String) (g : Globals) : Globals × Option String :=
  ({ g with forcedCollectors := mapSet g.forcedCollectors collector true }, none)

/-- `registerCollector(collector, isDefaultEnabled, factory)`: registers the
`collector.<name>` kingpin flag (default seeded from `isDefaultEnabled`,
action = `collectorFlagAction collector`) and assigns into the
`collectorState` and `factories` maps. `collectorState` holds the resolved
enabled value the flag pointer will carry after parsing. -/
def registerCollector (collector : String) (isDefaultEnabled : Bool) (factory : Factory)
    (g : Globals) : Globals :=
  let helpDefaultState := if isDefaultEnabled then "enabled" else "disabled"
  let flagName := "collector." ++ collector
  let flagHelp := "Enable the " ++ collector ++ " collector (default: " ++ helpDefaultState ++ ")."
  let defaultValue := if isDefaultEnabled then "true" else "false"
  let flag : FlagClause :=
    { name := flagName, help := flagHelp, defaultValue := defaultValue,
      actionTarget := some collector }
  { g with
    kingpinFlags := g.kingpinFlags ++ [flag]
    collectorState := mapSet g.collectorState collector isDefaultEnabled
    factories := mapSet g.factories collector factory }

/-- `factories[key](logger)`: look the factory up and call it. A key present
in `collectorState` but absent from `factories` would be a nil map entry in
Go and the call would panic; `registerCollector` always writes both maps, so
for reachable states the `.error` fallback below never fires. -/
def callFactory (fs : List (String × Factory)) (key : String) (logger : Logger) :
    Except String Collector :=
  match lookupMap fs key with
  | some f => f logger
  | none => .error ("nil factory entry for " ++ key)

/-- The loop body of `NewBillingCollector`: walk `collectorState`; for an
enabled entry call its factory with a `collector`-tagged child logger and on
success assign into the `collectors` map, on error return it immediately;
for a disabled entry log "Collector disabled". -/
def nbcLoop (fs : List (String × Factory)) (logger : Logger) :
    List (String × Bool) → List (String × Collector) → List String →
      Except String (List (String × Collector)) × List String
  | [], collectors, logs => (.ok collectors, logs)
  | (key, enabled) :: rest, collectors, logs =>
    if enabled then
      match callFactory fs key (logWith logger "collector" key) with
      | .error e => (.error e, logs)
      | .ok c => nbcLoop fs logger rest (mapSet collectors key c) logs
    else
      nbcLoop fs logger rest collectors (logs ++ ["Collector disabled name=" ++ key])

/-- `NewBillingCollector(logger) (*BillingCollector, error)`: builds the
active collector set from the enabled entries; on the first constructor
error returns `(nil, err)`. The result mirrors Go's value pair
`(Option BillingCollector × Option String)`, paired with the log lines. -/
def NewBillingCollector (g : Globals) (logger : Logger) (logs : List String) :
    (Option BillingCollector × Option String) × List String :=
  match nbcLoop g.factories logger g.collectorState [] logs with
  | (.ok collectors, logs1) => ((some { Collectors := collectors, logger := logger }, none), logs1)
  | (.error e, logs1) => ((none, some e), logs1)

/-- `(n BillingCollector) Describe(ch)`: sends the `up` descriptor. -/
def Describe (n : BillingCollector) (ch : List Desc) : List Desc :=
  ch ++ [up]

/-- `execute(name, c, ch, logger)`: runs `c.Update(ch)`; on error logs
"Cannot collect metrics" with the error and sets success to 0, otherwise
success is 1; then sends the `up` const metric labelled with `name`. -/
def execute (name : String) (c : Collector) (ch : List Metric) (logs : List String) :
    List Metric × List String :=
  match Update c ch with
  | (ch1, some err) =>
    (ch1 ++ [MustNewConstMetric up ValueType.GaugeValue 0 [name]],
     logs ++ ["Cannot collect metrics err=" ++ err])
  | (ch1, none) =>
    (ch1 ++ [MustNewConstMetric up ValueType.GaugeValue 1 [name]], logs)

/-- `(n BillingCollector) Collect(ch)`: runs `execute` once per active
collector (in Go: one goroutine each, joined by a WaitGroup; modelled as the
sequential fold over the set — the multiset of channel sends does not depend
on the schedule). -/
def Collect (n : BillingCollector) (ch : List Metric) (logs : List String) :
    List Metric × List String :=
  n.Collectors.foldl (fun acc p => execute p.1 p.2 acc.1 acc.2) (ch, logs)

/-! ## Derived specification functions -/

/-- The success value `execute` computes for a collector: 0 on error, 1 otherwise. -/
def successOf (c : Collector) : ℚ :=
  if c.err.isSome then 0 else 1

/-- The success-indicator sample `execute name c ...` sends. -/
def indicator (name : String) (c : Collector) : Metric :=
  MustNewConstMetric up ValueType.GaugeValue (successOf c) [name]

/-- Whether a channel value is a sample of the `up` descriptor. -/
def isUpMetric : Metric → Bool
  | .constMetric d _ _ _ => decide (d = up)
  | _ => false

/-- The success-indicator samples among the channel values. -/
def upSamples (out : List Metric) : List Metric :=
  out.filter isUpMetric

/-- The label values of an `up` sample, `none` for anything else. -/
def upLabel : Metric → Option (List String)
  | .constMetric d _ _ lv => if d = up then some lv else none
  | _ => none

/-- The gauge value of a const metric, `none` for anything else. -/
def valueOf : Metric → Option ℚ
  | .constMetric _ _ v _ => some v
  | _ => none

/-- Whether a channel value is the `MustNewConstMetric` panic marker. -/
def isPanicked : Metric → Bool
  | .panicked _ => true
  | _ => false

/-- The channel values one `Collect` call sends for a given active set:
each collector's own samples followed by its success indicator. -/
def collectOut : List (String × Collector) → List Metric
  | [] => []
  | (n, c) :: rest => c.emits.map Metric.sample ++ [indicator n c] ++ collectOut rest

/-- The log lines one `Collect` call emits for a given active set. -/
def collectLogs : List (String × Collector) → List String
  | [] => []
  | (n, c) :: rest =>
    (match c.err with
     | some e => ["Cannot collect metrics err=" ++ e]
     | none => []) ++ collectLogs rest

/-- The error of a fallible result, `none` on success. -/
def errOf {α : Type} : Except String α → Option String
  | .error e => some e
  | .ok _ => none

/-- Whether a fallible result is an error. -/
def isErr {α : Type} (x : Except String α) : Bool :=
  (errOf x).isSome

/-- The error of the first enabled entry (in iteration order) whose factory
call fails, `none` when every enabled entry's factory succeeds. -/
def firstEnabledError (fs : List (String × Factory)) (logger : Logger) :
    List (String × Bool) → Option String
  | [] => none
  | (key, enabled) :: rest =>
    if enabled then
      match callFactory fs key (logWith logger "collector" key) with
      | .error e => some e
      | .ok _ => firstEnabledError fs logger rest
    else firstEnabledError fs logger rest

/-- kingpin's parse-time duplicate scan over the registered flags, walking the
flag order with the set of names already seen (modelled from
gopkg.in/alecthomas/kingpin.v2 `flagGroup.checkDuplicates`, a vendored
dependency, not in this repository; on a duplicate `MustParse` terminates the
process). -/
def checkDupGo : List FlagClause → List String → Option String
  | [], _ => none
  | f :: rest, seen =>
    if f.name ∈ seen then some ("duplicate long flag --" ++ f.name)
    else checkDupGo rest (f.name :: seen)

/-- kingpin's duplicate-flag check at the start of parsing. -/
def checkDuplicates (flags : List FlagClause) : Option String :=
  checkDupGo flags []

/-- Run the `collectorFlagAction` callbacks of the given collector names, as
kingpin does for each explicitly supplied `collector.<name>` flag. -/
def applyFlagActions (names : List String) (g : Globals) : Globals :=
  names.foldl (fun s n => (collectorFlagAction n s).1) g

/-- One exposition run: build the orchestrator from the globals, then collect.
Returns `none` when the build failed. -/
def runCollect (g : Globals) (logger : Logger) (ch : List Metric) (logs : List String) :
    Option (List Metric) × List String :=
  match NewBillingCollector g logger logs with
  | ((some bc, _), logs1) => (some (Collect bc ch logs1).1, (Collect bc ch logs1).2)
  | ((none, _), logs1) => (none, logs1)

/-- One describe run: build the orchestrator from the globals, then describe. -/
def runDescribe (g : Globals) (logger : Logger) (dh : List Desc) : Option (List Desc) :=
  match NewBillingCollector g logger [] with
  | ((some bc, _), _) => some (Describe bc dh)
  | ((none, _), _) => none

/-! ## Helper lemmas -/

lemma indicator_eq (n : String) (c : Collector) :
    indicator n c = Metric.constMetric up ValueType.GaugeValue (successOf c) [n] := rfl

lemma execute_eq (name : String) (c : Collector) (ch : List Metric) (logs : List String) :
    execute name c ch logs =
      (ch ++ c.emits.map Metric.sample ++ [indicator name c],
       logs ++ (match c.err with
                | some e => ["Cannot collect metrics err=" ++ e]
                | none => [])) := by
  obtain ⟨emits, err⟩ := c
  cases err <;>
    simp [execute, Update, indicator, successOf, List.append_assoc]

lemma collect_cons (lg : Logger) (n : String) (c : Collector)
    (rest : List (String × Collector)) (ch : List Metric) (logs : List String) :
    Collect ⟨(n, c) :: rest, lg⟩ ch logs =
      Collect ⟨rest, lg⟩ (execute n c ch logs).1 (execute n c ch logs).2 := rfl

lemma collect_eq (lg : Logger) (cs : List (String × Collector)) :
    ∀ (ch : List Metric) (logs : List String),
      Collect ⟨cs, lg⟩ ch logs = (ch ++ collectOut cs, logs ++ collectLogs cs) := by
  induction cs with
  | nil => intro ch logs; simp [Collect, collectOut, collectLogs]
  | cons p rest ih =>
    intro ch logs
    obtain ⟨n, c⟩ := p
    rw [collect_cons, execute_eq, ih]
    obtain ⟨emits, err⟩ := c
    cases err <;> simp [collectOut, collectLogs, List.append_assoc]

lemma upSamples_map_sample (l : List String) : upSamples (l.map Metric.sample) = [] := by
  induction l with
  | nil => rfl
  | cons a t ih => simpa [upSamples, isUpMetric, List.filter_cons] using ih

lemma isUpMetric_indicator (n : String) (c : Collector) : isUpMetric (indicator n c) = true := by
  simp [isUpMetric, indicator_eq]

lemma upSamples_collectOut (cs : List (String × Collector)) :
    upSamples (collectOut cs) = cs.map (fun p => indicator p.1 p.2) := by
  induction cs with
  | nil => rfl
  | cons p rest ih =>
    obtain ⟨n, c⟩ := p
    simp only [collectOut, upSamples, List.filter_append] at *
    rw [show (c.emits.map Metric.sample).filter isUpMetric = [] from upSamples_map_sample c.emits]
    simp [List.filter_cons, isUpMetric_indicator, ih]

lemma collect_drop (bc : BillingCollector) (ch : List Metric) (lgs : List String) :
    ((Collect bc ch lgs).1).drop ch.length = collectOut bc.Collectors := by
  obtain ⟨cs, lg⟩ := bc
  rw [show Collect ⟨cs, lg⟩ ch lgs = (ch ++ collectOut cs, lgs ++ collectLogs cs) from
    collect_eq lg cs ch lgs]
  exact List.drop_left ch (collectOut cs)

lemma value_pred_indicator_zero (p : String × Collector) :
    (decide (valueOf (indicator p.1 p.2) = some 0)) = p.2.err.isSome := by
  obtain ⟨n, c⟩ := p
  obtain ⟨em, err⟩ := c
  cases err <;> simp [indicator_eq, valueOf, successOf]

lemma value_pred_indicator_one (p : String × Collector) :
    (decide (valueOf (indicator p.1 p.2) = some 1)) = p.2.err.isNone := by
  obtain ⟨n, c⟩ := p
  obtain ⟨em, err⟩ := c
  cases err <;> simp [indicator_eq, valueOf, successOf]

lemma upLabel_sample_none (l : List String) : (l.map Metric.sample).filterMap upLabel = [] := by
  induction l with
  | nil => rfl
  | cons a t ih => simpa [upLabel, List.filterMap_cons] using ih

lemma upLabel_indicator (n : String) (c : Collector) : upLabel (indicator n c) = some [n] := by
  simp [indicator_eq, upLabel]

lemma collectOut_upLabels (cs : List (String × Collector)) :
    (collectOut cs).filterMap upLabel = cs.map (fun p => [p.1]) := by
  induction cs with
  | nil => rfl
  | cons p rest ih =>
    obtain ⟨n, c⟩ := p
    simp [collectOut, List.filterMap_append, upLabel_sample_none, List.filterMap_cons,
      upLabel_indicator, ih]
    intro a _
    rfl

lemma mapSet_of_not_mem {α : Type} : ∀ (m : List (String × α)) (k : String) (v : α),
    k ∉ m.map Prod.fst → mapSet m k v = m ++ [(k, v)] := by
  intro m
  induction m with
  | nil => intro k v _; rfl
  | cons p rest ih =>
    intro k v h
    obtain ⟨k0, v0⟩ := p
    simp only [List.map_cons, List.mem_cons] at h
    push_neg at h
    simp [mapSet, Ne.symm h.1, ih k v h.2]

lemma lookupMap_mapSet_self {α : Type} : ∀ (m : List (String × α)) (k : String) (v : α),
    lookupMap (mapSet m k v) k = some v := by
  intro m
  induction m with
  | nil => intro k v; simp [mapSet, lookupMap, List.find?]
  | cons p rest ih =>
    intro k v
    obtain ⟨k0, v0⟩ := p
    by_cases h : k0 = k
    · simp [mapSet, h, lookupMap, List.find?]
    · simp only [mapSet, if_neg h]
      have := ih k v
      simp only [lookupMap, List.find?] at *
      simp [h, this]

lemma lookupMap_mapSet_ne {α : Type} : ∀ (m : List (String × α)) (k q : String) (v : α),
    q ≠ k → lookupMap (mapSet m k v) q = lookupMap m q := by
  intro m
  induction m with
  | nil => intro k q v h; simp [mapSet, lookupMap, List.find?, Ne.symm h]
  | cons p rest ih =>
    intro k q v h
    obtain ⟨k0, v0⟩ := p
    by_cases h0 : k0 = k
    · subst h0
      simp [mapSet, lookupMap, List.find?, Ne.symm h]
    · simp only [mapSet, if_neg h0]
      by_cases hq : k0 = q
      · simp [lookupMap, List.find?, hq]
      · have := ih k q v h
        simp only [lookupMap, List.find?] at *
        simp [hq, this]

lemma nbcLoop_errOf (fs : List (String × Factory)) (lg : Logger) :
    ∀ (state : List (String × Bool)) (acc : List (String × Collector)) (logs : List String),
      errOf (nbcLoop fs lg state acc logs).1 = firstEnabledError fs lg state := by
  intro state
  induction state with
  | nil => intro acc logs; rfl
  | cons p rest ih =>
    intro acc logs
    obtain ⟨key, enabled⟩ := p
    cases enabled with
    | false => simpa [nbcLoop, firstEnabledError] using ih acc _
    | true =>
      cases hc : callFactory fs key (logWith lg "collector" key) with
      | error e => simp [nbcLoop, firstEnabledError, hc, errOf]
      | ok c => simpa [nbcLoop, firstEnabledError, hc] using ih (mapSet acc key c) logs

lemma firstEnabledError_isSome (fs : List (String × Factory)) (lg : Logger) :
    ∀ state : List (String × Bool),
      (firstEnabledError fs lg state).isSome =
        state.any (fun p => p.2 && isErr (callFactory fs p.1 (logWith lg "collector" p.1))) := by
  intro state
  induction state with
  | nil => rfl
  | cons p rest ih =>
    obtain ⟨key, enabled⟩ := p
    cases enabled with
    | false => simpa [firstEnabledError] using ih
    | true =>
      cases hc : callFactory fs key (logWith lg "collector" key) with
      | error e => simp [firstEnabledError, hc, isErr, errOf]
      | ok c => simpa [firstEnabledError, hc, isErr, errOf] using ih

lemma newBC_snd (g : Globals) (lg : Logger) (logs : List String) :
    ((NewBillingCollector g lg logs).1).2 = firstEnabledError g.factories lg g.collectorState := by
  have h := nbcLoop_errOf g.factories lg g.collectorState [] logs
  unfold NewBillingCollector
  rcases hr : nbcLoop g.factories lg g.collectorState [] logs with ⟨r, logs1⟩
  rw [hr] at h
  cases r <;> simpa [errOf] using h

lemma newBC_fst_isSome (g : Globals) (lg : Logger) (logs : List String) :
    ((NewBillingCollector g lg logs).1).1.isSome =
      !((firstEnabledError g.factories lg g.collectorState).isSome) := by
  have h := nbcLoop_errOf g.factories lg g.collectorState [] logs
  unfold NewBillingCollector
  rcases hr : nbcLoop g.factories lg g.collectorState [] logs with ⟨r, logs1⟩
  rw [hr] at h
  cases r <;> simp [errOf] at h <;> simp [← h, errOf]

lemma newBC_fst_isNone (g : Globals) (lg : Logger) (logs : List String) :
    ((NewBillingCollector g lg logs).1).1.isNone =
      (firstEnabledError g.factories lg g.collectorState).isSome := by
  have h := nbcLoop_errOf g.factories lg g.collectorState [] logs
  unfold NewBillingCollector
  rcases hr : nbcLoop g.factories lg g.collectorState [] logs with ⟨r, logs1⟩
  rw [hr] at h
  cases r <;> simp [errOf] at h <;> simp [← h, errOf]

lemma checkDupGo_none : ∀ (flags : List FlagClause) (seen : List String),
    checkDupGo flags seen = none →
      (flags.map FlagClause.name).Nodup ∧ ∀ s ∈ seen, s ∉ flags.map FlagClause.name := by
  intro flags
  induction flags with
  | nil => intro seen _; simp
  | cons f rest ih =>
    intro seen h
    unfold checkDupGo at h
    by_cases hm : f.name ∈ seen
    · simp [hm] at h
    · rw [if_neg hm] at h
      obtain ⟨hnd, hseen⟩ := ih (f.name :: seen) h
      have hfn : f.name ∉ rest.map FlagClause.name := hseen f.name (by simp)
      refine ⟨by simp [List.nodup_cons, hfn, hnd], ?_⟩
      intro s hs
      have hrest : s ∉ rest.map FlagClause.name := hseen s (by simp [hs])
      have hne : s ≠ f.name := fun he => hm (he ▸ hs)
      simp [List.mem_cons, hne, hrest]

lemma checkDuplicates_append_pair (pre : List FlagClause) (fl1 fl2 : FlagClause)
    (hname : fl1.name = fl2.name) :
    (checkDuplicates ((pre ++ [fl1]) ++ [fl2])).isSome = true := by
  cases hd : checkDuplicates ((pre ++ [fl1]) ++ [fl2]) with
  | some e => rfl
  | none =>
    exfalso
    have h := (checkDupGo_none _ [] hd).1
    rw [List.map_append, List.map_append, List.append_assoc] at h
    have h3 := h.of_append_right
    simp [hname] at h3

lemma applyFlagActions_preserves (names : List String) : ∀ g : Globals,
    (applyFlagActions names g).factories = g.factories ∧
    (applyFlagActions names g).collectorState = g.collectorState := by
  induction names with
  | nil => intro g; exact ⟨rfl, rfl⟩
  | cons n rest ih =>
    intro g
    simpa [applyFlagActions, collectorFlagAction, List.foldl_cons] using
      ih ((collectorFlagAction n g).1)

lemma runCollect_ext (g1 g2 : Globals) (hf : g1.factories = g2.factories)
    (hs : g1.collectorState = g2.collectorState) (lg : Logger) (ch : List Metric)
    (logs : List String) :
    runCollect g1 lg ch logs = runCollect g2 lg ch logs := by
  unfold runCollect NewBillingCollector
  rw [hf, hs]

lemma runDescribe_ext (g1 g2 : Globals) (hf : g1.factories = g2.factories)
    (hs : g1.collectorState = g2.collectorState) (lg : Logger) (dh : List Desc) :
    runDescribe g1 lg dh = runDescribe g2 lg dh := by
  unfold runDescribe NewBillingCollector
  rw [hf, hs]

lemma nbcLoop_ok_keys (fs : List (String × Factory)) (lg : Logger) :
    ∀ (state : List (String × Bool)) (acc : List (String × Collector)) (logs : List String)
      (cs : List (String × Collector)),
      (acc.map Prod.fst ++ state.map Prod.fst).Nodup →
      (nbcLoop fs lg state acc logs).1 = .ok cs →
      cs.map Prod.fst = acc.map Prod.fst ++ (state.filter (fun p => p.2)).map Prod.fst := by
  intro state
  induction state with
  | nil =>
    intro acc logs cs _ h
    simp only [nbcLoop, Except.ok.injEq] at h
    simp [← h]
  | cons p rest ih =>
    intro acc logs cs hnd h
    obtain ⟨key, enabled⟩ := p
    cases enabled with
    | false =>
      have hnd2 : (acc.map Prod.fst ++ rest.map Prod.fst).Nodup := by
        refine List.Sublist.nodup ?_ hnd
        exact List.Sublist.append_left (List.sublist_cons_self _ _) _
      have hrec := ih acc (logs ++ ["Collector disabled name=" ++ key]) cs hnd2
        (by simpa [nbcLoop] using h)
      simpa [List.filter_cons] using hrec
    | true =>
      cases hc : callFactory fs key (logWith lg "collector" key) with
      | error e => simp [nbcLoop, hc] at h
      | ok c =>
        have hkey : key ∉ acc.map Prod.fst := by
          intro hmem
          exact (List.disjoint_of_nodup_append hnd) hmem (by simp)
        have hacc : mapSet acc key c = acc ++ [(key, c)] := mapSet_of_not_mem _ _ _ hkey
        have hnd2 : ((acc ++ [(key, c)]).map Prod.fst ++ rest.map Prod.fst).Nodup := by
          simpa [List.map_append, List.append_assoc] using hnd
        have hrec := ih (acc ++ [(key, c)]) logs cs hnd2
          (by rw [← hacc]; simpa [nbcLoop, hc] using h)
        simpa [List.filter_cons, List.map_append, List.append_assoc] using hrec

lemma nbcLoop_factories_ext (fs fs2 : List (String × Factory)) (lg : Logger) :
    ∀ (state : List (String × Bool)) (acc : List (String × Collector)) (logs : List String),
      (∀ p ∈ state, p.2 = true →
        callFactory fs p.1 (logWith lg "collector" p.1) =
          callFactory fs2 p.1 (logWith lg "collector" p.1)) →
      nbcLoop fs lg state acc logs = nbcLoop fs2 lg state acc logs := by
  intro state
  induction state with
  | nil => intro acc logs _; rfl
  | cons p rest ih =>
    intro acc logs h
    obtain ⟨key, enabled⟩ := p
    cases enabled with
    | false =>
      simpa [nbcLoop] using
        ih acc (logs ++ ["Collector disabled name=" ++ key])
          (fun q hq hql => h q (by simp [hq]) hql)
    | true =>
      have hk := h (key, true) (by simp) rfl
      simp only [nbcLoop, if_pos]
      rw [← hk]
      cases hc : callFactory fs key (logWith lg "collector" key) with
      | error e => simp [hc]
      | ok c =>
        simpa [hc] using
          ih (mapSet acc key c) logs (fun q hq hql => h q (by simp [hq]) hql)

lemma not_mem_enabled (state : List (String × Bool))
    (hnd : (state.map Prod.fst).Nodup) (name : String)
    (hmem : (name, false) ∈ state) :
    ∀ p ∈ state, p.2 = true → p.1 ≠ name := by
  intro p hp hpt he
  have hpe : p = (name, false) :=
    List.inj_on_of_nodup_map hnd hp hmem (by simpa using he)
  rw [hpe] at hpt
  simp at hpt

lemma newBC_ok_keys (g : Globals) (lg : Logger) (logs : List String)
    (bc : BillingCollector) (hnd : (g.collectorState.map Prod.fst).Nodup)
    (h : ((NewBillingCollector g lg logs).1).1 = some bc) :
    bc.Collectors.map Prod.fst = (g.collectorState.filter (fun p => p.2)).map Prod.fst := by
  unfold NewBillingCollector at h
  rcases hr : nbcLoop g.factories lg g.collectorState [] logs with ⟨r, logs1⟩
  rw [hr] at h
  cases r with
  | error e => simp at h
  | ok cs =>
    simp only [Option.some.injEq] at h
    have hk := nbcLoop_ok_keys g.factories lg g.collectorState [] logs cs
      (by simpa using hnd) (by rw [hr])
    rw [← h]
    simpa using hk

lemma newBC_callFactory_ext (g1 g2 : Globals) (lg : Logger) (logs : List String)
    (hs : g1.collectorState = g2.collectorState)
    (hfac : ∀ p ∈ g1.collectorState, p.2 = true →
      callFactory g1.factories p.1 (logWith lg "collector" p.1) =
        callFactory g2.factories p.1 (logWith lg "collector" p.1)) :
    NewBillingCollector g1 lg logs = NewBillingCollector g2 lg logs := by
  unfold NewBillingCollector
  rw [← hs]
  rw [nbcLoop_factories_ext g1.factories g2.factories lg g1.collectorState [] logs hfac]

lemma newBC_disabled_factory_irrelevant (g : Globals) (lg : Logger) (logs : List String)
    (name : String) (fAlt : Factory)
    (hnd : (g.collectorState.map Prod.fst).Nodup)
    (hmem : (name, false) ∈ g.collectorState) :
    NewBillingCollector { g with factories := mapSet g.factories name fAlt } lg logs =
      NewBillingCollector g lg logs := by
  refine newBC_callFactory_ext _ _ lg logs rfl ?_
  intro p hp hpt
  have hne : p.1 ≠ name := not_mem_enabled g.collectorState hnd name hmem p hp hpt
  show callFactory (mapSet g.factories name fAlt) p.1 (logWith lg "collector" p.1) =
    callFactory g.factories p.1 (logWith lg "collector" p.1)
  unfold callFactory
  rw [lookupMap_mapSet_ne g.factories name p.1 fAlt hne]

/-! ## Claim theorems -/

/-- C1: for every active collector set, one `Collect` call sends exactly one
success-indicator (`up`) sample per collector — the samples are, in order,
the indicators of the collectors, each labelled with its own collector's
name; of the N indicators, K carry value 0 (the collectors whose `Update`
returned an error) and N−K carry value 1 (those whose `Update` succeeded).
Counts of channel sends are invariant under the goroutine schedule, so they
are stated over the modelled sequentialization. -/
theorem collect_emits_one_indicator_per_collector
    (cs : List (String × Collector)) (lg : Logger) (ch : List Metric) (logs : List String) :
    upSamples (((Collect ⟨cs, lg⟩ ch logs).1).drop ch.length) =
        cs.map (fun p => indicator p.1 p.2) ∧
    (upSamples (((Collect ⟨cs, lg⟩ ch logs).1).drop ch.length)).length = cs.length ∧
    ((upSamples (((Collect ⟨cs, lg⟩ ch logs).1).drop ch.length)).filter
        (fun m => decide (valueOf m = some 0))).length =
      (cs.filter (fun p => p.2.err.isSome)).length ∧
    ((upSamples (((Collect ⟨cs, lg⟩ ch logs).1).drop ch.length)).filter
        (fun m => decide (valueOf m = some 1))).length =
      (cs.filter (fun p => p.2.err.isNone)).length := by
  have hdrop : ((Collect ⟨cs, lg⟩ ch logs).1).drop ch.length = collectOut cs :=
    collect_drop ⟨cs, lg⟩ ch logs
  have hz : cs.filter (fun x => decide (valueOf (indicator x.1 x.2) = some 0)) =
      cs.filter (fun p => p.2.err.isSome) :=
    List.filter_congr (fun x _ => value_pred_indicator_zero x)
  have ho : cs.filter (fun x => decide (valueOf (indicator x.1 x.2) = some 1)) =
      cs.filter (fun p => p.2.err.isNone) :=
    List.filter_congr (fun x _ => value_pred_indicator_one x)
  refine ⟨by rw [hdrop, upSamples_collectOut], by rw [hdrop, upSamples_collectOut]; simp, ?_, ?_⟩
  · rw [hdrop, upSamples_collectOut, List.filter_map]
    simp only [Function.comp_def]
    rw [hz]
    simp
  · rw [hdrop, upSamples_collectOut, List.filter_map]
    simp only [Function.comp_def]
    rw [ho]
    simp

/-- C2: for every collector whose `Update` returns an error, `execute` logs
the error, records success 0 and still writes the success-indicator sample;
the error value goes nowhere else — `execute` returns no error, and a
`Collect` over a set starting with the failing collector simply continues
with the remaining collectors on the updated channel, so `Collect` always
returns normally however many collectors fail. -/
theorem execute_contains_update_error (name : String) (emits : List String) (e : String)
    (ch : List Metric) (logs : List String) (lg : Logger)
    (rest : List (String × Collector)) :
    execute name ⟨emits, some e⟩ ch logs =
      (ch ++ emits.map Metric.sample ++
         [Metric.constMetric up ValueType.GaugeValue 0 [name]],
       logs ++ ["Cannot collect metrics err=" ++ e]) ∧
    Collect ⟨(name, ⟨emits, some e⟩) :: rest, lg⟩ ch logs =
      Collect ⟨rest, lg⟩ (execute name ⟨emits, some e⟩ ch logs).1
        (execute name ⟨emits, some e⟩ ch logs).2 := by
  constructor
  · rw [execute_eq]
    simp [indicator_eq, successOf]
  · rfl

/-- C7: within one collector's execution, every metric the collector itself
sends is on the channel before the wrapper's success-indicator write: the
channel after `execute` is the prior contents, then the collector's own
samples, then — last — the indicator. -/
theorem execute_writes_indicator_after_update (name : String) (c : Collector)
    (ch : List Metric) (logs : List String) :
    (execute name c ch logs).1 = ch ++ c.emits.map Metric.sample ++ [indicator name c] ∧
    ((execute name c ch logs).1).getLast? = some (indicator name c) := by
  have h : (execute name c ch logs).1 =
      ch ++ c.emits.map Metric.sample ++ [indicator name c] := by
    rw [execute_eq]
  exact ⟨h, by rw [h]; simp⟩

/-- C9: with an empty active collector set, `Collect` sends nothing (the
channel and log are returned unchanged), while `Describe` still emits the
single `up` descriptor. -/
theorem collect_empty_set_and_describe (lg : Logger) (ch : List Metric)
    (logs : List String) (dh : List Desc) :
    Collect ⟨[], lg⟩ ch logs = (ch, logs) ∧ Describe ⟨[], lg⟩ dh = dh ++ [up] :=
  ⟨rfl, rfl⟩

/-- C10: the success-indicator construction in `execute` can never hit the
panic branch of `MustNewConstMetric`: exactly one label value is supplied,
matching the single `collector` variable label of `up`, the gauge value is
exactly 0 or 1, `NewConstMetric` succeeds, and nothing `execute` put on the
channel is the panic marker. -/
theorem const_metric_construction_never_panics (name : String) (c : Collector)
    (ch : List Metric) (logs : List String) :
    NewConstMetric up ValueType.GaugeValue (successOf c) [name] =
      Except.ok (Metric.constMetric up ValueType.GaugeValue (successOf c) [name]) ∧
    [name].length = up.variableLabels.length ∧
    up.variableLabels = ["collector"] ∧
    (successOf c = 0 ∨ successOf c = 1) ∧
    MustNewConstMetric up ValueType.GaugeValue (successOf c) [name] =
      Metric.constMetric up ValueType.GaugeValue (successOf c) [name] ∧
    (((execute name c ch logs).1).drop ch.length).all (fun m => !(isPanicked m)) = true := by
  refine ⟨rfl, rfl, rfl, ?_, rfl, ?_⟩
  · obtain ⟨em, err⟩ := c
    cases err <;> simp [successOf]
  · have h : (execute name c ch logs).1 =
        ch ++ c.emits.map Metric.sample ++ [indicator name c] := by
      rw [execute_eq]
    rw [h, List.append_assoc, List.drop_left]
    simp [List.all_append, isPanicked, indicator_eq]

/-- C6 (counterexample to the claim as stated): `Describe` does emit exactly
one descriptor, but that descriptor's help text is "Can be test_server
reached", not "whether the named collector's last run succeeded", and its
metric name is the namespace-qualified "github_billing_up", not the bare
"up". -/
theorem describe_help_text_counterexample :
    Describe ⟨[], []⟩ [] = [up] ∧
    (up.help == "whether the named collector's last run succeeded") = false ∧
    (up.fqName == "up") = false ∧
    up.help = "Can be test_server reached" ∧
    up.fqName = "github_billing_up" := by
  refine ⟨rfl, by decide, by decide, rfl, rfl⟩

/-- C6 (amended): every invocation of `Describe` emits exactly one
descriptor, the success-indicator descriptor `up`, whose fully-qualified
metric name is "github_billing_up", whose single variable label is
`collector`, and whose help text is "Can be test_server reached"; repeated
invocations always append this same single descriptor. -/
theorem describe_emits_single_up_descriptor (n : BillingCollector) (dh : List Desc) :
    Describe n dh = dh ++ [up] ∧
    up.fqName = "github_billing_up" ∧
    up.variableLabels = ["collector"] ∧
    up.help = "Can be test_server reached" :=
  ⟨rfl, rfl, rfl, rfl⟩

/-- C3: `NewBillingCollector` returns, as its error component, exactly the
error of the first enabled entry whose constructor fails (none when all
enabled constructors succeed); it returns an orchestrator — and then no
error — precisely when no enabled constructor fails, and returns nil (no
orchestrator at all, never a partially-populated one) precisely when some
enabled constructor fails. -/
theorem newBillingCollector_error_propagation (g : Globals) (lg : Logger)
    (logs : List String) :
    ((NewBillingCollector g lg logs).1).2 =
        firstEnabledError g.factories lg g.collectorState ∧
    ((NewBillingCollector g lg logs).1).1.isSome =
        !(g.collectorState.any fun p =>
            p.2 && isErr (callFactory g.factories p.1 (logWith lg "collector" p.1))) ∧
    ((NewBillingCollector g lg logs).1).1.isNone =
        (g.collectorState.any fun p =>
            p.2 && isErr (callFactory g.factories p.1 (logWith lg "collector" p.1))) := by
  refine ⟨newBC_snd g lg logs, ?_, ?_⟩
  · rw [newBC_fst_isSome g lg logs, firstEnabledError_isSome g.factories lg g.collectorState]
  · rw [newBC_fst_isNone g lg logs, firstEnabledError_isSome g.factories lg g.collectorState]

/-- C8: the override-occurred bookkeeping (`forcedCollectors`, written only by
the `collectorFlagAction` callbacks) influences neither `Collect` nor
`Describe`: two runs over the same registry whose flag actions fired for
arbitrarily different collector name lists produce identical collect output
and identical describe output. -/
theorem forced_overrides_no_influence (g : Globals) (names1 names2 : List String)
    (lg : Logger) (ch : List Metric) (logs : List String) (dh : List Desc) :
    runCollect (applyFlagActions names1 g) lg ch logs =
      runCollect (applyFlagActions names2 g) lg ch logs ∧
    runDescribe (applyFlagActions names1 g) lg dh =
      runDescribe (applyFlagActions names2 g) lg dh := by
  obtain ⟨hf1, hs1⟩ := applyFlagActions_preserves names1 g
  obtain ⟨hf2, hs2⟩ := applyFlagActions_preserves names2 g
  exact ⟨runCollect_ext _ _ (hf1.trans hf2.symm) (hs1.trans hs2.symm) lg ch logs,
    runDescribe_ext _ _ (hf1.trans hf2.symm) (hs1.trans hs2.symm) lg dh⟩

/-- A first registration's constructor for the duplicate-name scenario. -/
def fDupFirst : Factory := fun _ => .ok ⟨["first_sample"], none⟩

/-- A second registration's constructor for the duplicate-name scenario. -/
def fDupSecond : Factory := fun _ => .ok ⟨["second_sample"], none⟩

/-- The registry after registering the name "dup" twice: first with default
enabled and `fDupFirst`, then with default disabled and `fDupSecond`. -/
def dupGlobals : Globals :=
  registerCollector "dup" false fDupSecond (registerCollector "dup" true fDupFirst emptyGlobals)

/-- C4 (counterexample to the claim as stated): after a duplicate
registration the registry retains the SECOND registration's entry, not the
first's — the stored default-enabled state is the second's `false` (the
first registered `true`), and the stored constructor behaves as the second
one (whose collector differs from the first's). `registerCollector` itself
rejects nothing. -/
theorem registerCollector_retains_second_not_first :
    lookupMap dupGlobals.collectorState "dup" = some false ∧
    (lookupMap dupGlobals.factories "dup").map (fun f => f []) =
      some (Except.ok ⟨["second_sample"], none⟩) ∧
    (decide ((Collector.mk ["second_sample"] none) = Collector.mk ["first_sample"] none)) =
      false := by
  refine ⟨rfl, rfl, by decide⟩

/-- C4 (amended): registering the same collector name twice is not rejected
by `registerCollector` itself; the registry maps then hold only the second
registration's constructor and default-enabled state, never the first's.
The duplicate is fatal only later: both `collector.<name>` flags sit in the
flag layer's registration order, so kingpin's parse-time duplicate scan
reports a duplicate long flag (and its `MustParse` terminates the process)
before any collection can run. -/
theorem registerCollector_overwrite_and_parse_time_duplicate (g : Globals)
    (name : String) (d1 d2 : Bool) (f1 f2 : Factory) :
    lookupMap (registerCollector name d2 f2 (registerCollector name d1 f1 g)).factories
        name = some f2 ∧
    lookupMap (registerCollector name d2 f2 (registerCollector name d1 f1 g)).collectorState
        name = some d2 ∧
    (checkDuplicates
        (registerCollector name d2 f2 (registerCollector name d1 f1 g)).kingpinFlags).isSome =
      true := by
  refine ⟨?_, ?_, ?_⟩
  · show lookupMap (mapSet (mapSet g.factories name f1) name f2) name = some f2
    exact lookupMap_mapSet_self _ _ _
  · show lookupMap (mapSet (mapSet g.collectorState name d1) name d2) name = some d2
    exact lookupMap_mapSet_self _ _ _
  · exact checkDuplicates_append_pair g.kingpinFlags _ _ rfl

/-- C5: when a build succeeds, the active collector set holds exactly the
registered names whose resolved-enabled flag was true, in iteration order;
for any entry resolved disabled, the name is not in the set, the build's
outcome is completely independent of that entry's constructor (replacing it
by an arbitrary one changes nothing — it is never invoked), and a subsequent
`Collect` emits no success-indicator sample labelled with that name. -/
theorem activeSet_exactly_enabled (g : Globals) (lg : Logger) (logs : List String)
    (hnd : (g.collectorState.map Prod.fst).Nodup)
    (bc : BillingCollector)
    (hbc : ((NewBillingCollector g lg logs).1).1 = some bc) :
    bc.Collectors.map Prod.fst = (g.collectorState.filter (fun p => p.2)).map Prod.fst ∧
    ∀ name, (name, false) ∈ g.collectorState →
      decide (name ∈ bc.Collectors.map Prod.fst) = false ∧
      (∀ fAlt : Factory,
        NewBillingCollector { g with factories := mapSet g.factories name fAlt } lg logs =
          NewBillingCollector g lg logs) ∧
      ∀ ch lgs,
        decide ([name] ∈ (((Collect bc ch lgs).1).drop ch.length).filterMap upLabel) =
          false := by
  have hkeys := newBC_ok_keys g lg logs bc hnd hbc
  refine ⟨hkeys, ?_⟩
  intro name hmem
  have hname : name ∉ bc.Collectors.map Prod.fst := by
    rw [hkeys]
    intro hin
    simp only [List.mem_map, List.mem_filter] at hin
    obtain ⟨p, ⟨hp, hpt⟩, hpn⟩ := hin
    exact not_mem_enabled g.collectorState hnd name hmem p hp (by simpa using hpt) hpn
  refine ⟨by simp [hname], ?_, ?_⟩
  · intro fAlt
    exact newBC_disabled_factory_irrelevant g lg logs name fAlt hnd hmem
  · intro ch lgs
    rw [collect_drop bc ch lgs, collectOut_upLabels]
    have hno : [name] ∉ bc.Collectors.map (fun p => [p.1]) := by
      intro hin
      simp only [List.mem_map] at hin
      obtain ⟨p, hp, hpe⟩ := hin
      exact hname (List.mem_map.mpr ⟨p, hp, by simpa using hpe⟩)
    simpa using hno

/-- A factory of the C5 witness scenario (collector "a"). -/
def fW1 : Factory := fun _ => .ok ⟨["a_sample"], none⟩

/-- A factory of the C5 witness scenario (collector "b", default disabled). -/
def fW2 : Factory := fun _ => .ok ⟨["b_sample"], none⟩

/-- A factory of the C5 witness scenario (collector "c"). -/
def fW3 : Factory := fun _ => .ok ⟨["c_sample"], none⟩

/-- Registry of the C5 witness scenario: a enabled, b disabled, c enabled. -/
def gW : Globals :=
  { factories := [("a", fW1), ("b", fW2), ("c", fW3)]
    collectorState := [("a", true), ("b", false), ("c", true)]
    forcedCollectors := []
    kingpinFlags := [] }

/-- The orchestrator the C5 witness scenario builds: the active set {a, c}. -/
def bcW : BillingCollector :=
  { Collectors := [("a", ⟨["a_sample"], none⟩), ("c", ⟨["c_sample"], none⟩)]
    logger := [] }

/-- C5 witness: the concrete scenario of spec §8 — three registered
collectors {a: enabled, b: disabled, c: enabled} build the active set
{a, c}; b is absent, b's constructor is irrelevant to the build, and
`Collect` emits no `up` sample labelled "b". -/
theorem activeSet_exactly_enabled_witness :
    (gW.collectorState.map Prod.fst).Nodup ∧
    ((NewBillingCollector gW [] []).1).1 = some bcW ∧
    bcW.Collectors.map Prod.fst = (gW.collectorState.filter (fun p => p.2)).map Prod.fst ∧
    decide ("b" ∈ bcW.Collectors.map Prod.fst) = false ∧
    NewBillingCollector { gW with factories := mapSet gW.factories "b" fW1 } [] [] =
      NewBillingCollector gW [] [] ∧
    decide (["b"] ∈ (((Collect bcW [] []).1).drop ([] : List Metric).length).filterMap upLabel) =
      false := by
  have h := activeSet_exactly_enabled gW [] [] (by decide) bcW rfl
  obtain ⟨h1, h2⟩ := h
  obtain ⟨hb1, hb2, hb3⟩ := h2 "b" (by decide)
  exact ⟨by decide, rfl, h1, hb1, hb2 fW1, hb3 [] []⟩
